import Mathlib

/-!
Shallow embedding of the payment/subscription reconciliation core of
`src/main.py` (Telegram VIP bot backed by a `payments` SQLite table and a
Mercado Pago webhook).

Modelling conventions:
* The `payments` table is a list of rows; the primary key is
  `mp_payment_id` (SQLite `INSERT OR REPLACE` keeps at most one row per key).
* Timestamps (`datetime.now(timezone.utc)`) are natural numbers counting
  seconds; `timedelta(days=n)` is `n * 86400`.  The source stores ISO-8601
  UTC strings whose lexicographic order agrees with chronological order, so
  `ORDER BY created_at DESC` is modelled by picking a row of maximal
  `created_at`.
* Python truthiness of the optional strings read from the request
  (`params.get("id")`, `data.get("id")`, `plan or "30d"`) is modelled
  explicitly: `None` and the empty string are falsy.
* The authoritative status fetch `mp_get_payment` is a network effect; the
  webhook handler takes its result as a parameter: `Except.error ()` for the
  `except Exception` path, `Except.ok s` for a response whose
  `.get("status", "unknown")` already produced `s`.
* `grant_access` (the `AccessGrantRequested` emission) is recorded as the
  list of telegram ids it was invoked for; its internals (invite links,
  messages) are outbound collaborators outside the core.
-/

namespace VipBot

/-- One row of the `payments` table (`CREATE TABLE payments ...` in
`src/main.py`): primary key `mp_payment_id`, with nullable `approved_at`,
`expires_at` and `plan` columns. -/
structure PaymentRow where
  mp_payment_id : String
  telegram_id : Int
  email : String
  status : String
  created_at : Nat
  approved_at : Option Nat
  expires_at : Option Nat
  plan : Option String
deriving DecidableEq

/-- The `payments` table. -/
abbrev Db := List PaymentRow

/-- Python truthiness of an optional string: `None` and `""` are falsy. -/
def truthyStr : Option String → Bool
  | none => false
  | some s => s != ""

/-- Python `x or d` for an optional string `x` and default `d`
(used for `plan = plan or "30d"`). -/
def pyOr : Option String → String → String
  | none, d => d
  | some s, d => if s = "" then d else s

/-- Seconds in one day (`timedelta(days=1)`). -/
def seconds_per_day : Nat := 86400

/-- `timedelta(days=n)`, in seconds. -/
def timedelta_days (n : Nat) : Nat := n * seconds_per_day

/-- Default of the `SUB_DAYS` environment variable (`os.getenv("SUB_DAYS", "30")`). -/
def SUB_DAYS : Nat := 30

/-- The row built by `db_insert_payment`: fresh `created_at`, null
`approved_at` and `expires_at`, caller-supplied status and plan. -/
def newPaymentRow (id : String) (tg : Int) (email status : String)
    (plan : Option String) (now : Nat) : PaymentRow :=
  { mp_payment_id := id, telegram_id := tg, email := email, status := status,
    created_at := now, approved_at := none, expires_at := none, plan := plan }

/-- `db_insert_payment`: `INSERT OR REPLACE INTO payments(...)`.  SQLite
replace semantics delete any row with the same primary key before inserting. -/
def db_insert_payment (id : String) (tg : Int) (email status : String)
    (plan : Option String) (now : Nat) (db : Db) : Db :=
  db.filter (fun r => r.mp_payment_id ≠ id) ++ [newPaymentRow id tg email status plan now]

/-- `db_get_payment`: `SELECT ... FROM payments WHERE mp_payment_id=?`. -/
def db_get_payment (id : String) (db : Db) : Option PaymentRow :=
  db.find? (fun r => r.mp_payment_id = id)

/-- `db_update_status`: `UPDATE payments SET status=? WHERE mp_payment_id=?`. -/
def db_update_status (id status : String) (db : Db) : Db :=
  db.map (fun r => if r.mp_payment_id = id then { r with status := status } else r)

/-- `db_mark_approved`: sets `status='approved'`, `approved_at=now` and
`expires_at` to `NULL` for the `"life"` plan and to `now + timedelta(days=SUB_DAYS)`
otherwise, on the row with the given payment id.  `subDays` is the configured
`SUB_DAYS` value. -/
def db_mark_approved (subDays : Nat) (id plan : String) (now : Nat) (db : Db) : Db :=
  db.map (fun r =>
    if r.mp_payment_id = id then
      { r with
        status := "approved",
        approved_at := some now,
        expires_at := if plan = "life" then none else some (now + timedelta_days subDays) }
    else r)

/-- `ORDER BY created_at DESC LIMIT 1` over a list of rows: a row of maximal
`created_at` (the earliest-listed one on ties, which SQLite leaves
unspecified). -/
def latestRow (rows : List PaymentRow) : Option PaymentRow :=
  rows.foldl
    (fun acc r =>
      match acc with
      | none => some r
      | some b => if b.created_at < r.created_at then some r else some b)
    none

/-- `db_get_latest_by_telegram`: `SELECT ... WHERE telegram_id=? ORDER BY
created_at DESC LIMIT 1`. -/
def db_get_latest_by_telegram (tg : Int) (db : Db) : Option PaymentRow :=
  latestRow (db.filter (fun r => r.telegram_id = tg))

/-- Modelled from the spec: `findByContact(contactAddress)` — the store
lookup used by the contact-correlated ("push-complete") provider family,
which is not part of this revision of the source; per the spec it returns the
most recently created record whose contact (the `email` column) matches,
following the same `ORDER BY created_at DESC LIMIT 1` shape as
`db_get_latest_by_telegram`. -/
def findByContact (contact : String) (db : Db) : Option PaymentRow :=
  latestRow (db.filter (fun r => r.email = contact))

/-- The parts of an inbound `/mp/webhook` request the handler reads: the
query parameters `id`, `topic`, `type` and, from the JSON body (empty dict
when parsing fails), `type` and `data.id` (already stringified). -/
structure WebhookRequest where
  params_id : Option String
  params_topic : Option String
  params_type : Option String
  payload_type : Option String
  payload_data_id : Option String
deriving DecidableEq

/-- Which JSON body `mp_webhook` answered with (every one of them has
`"ok": True`). -/
inductive WebhookOutcome
  /-- `{"ok": True, "ignored": True}` — no payment id could be resolved. -/
  | ignored
  /-- `{"ok": True, "error": "failed_to_fetch_payment"}` (status code 200). -/
  | fetchFailed
  /-- `{"ok": True, "unknown_payment": True}` — no stored row matched. -/
  | unknownPayment
  /-- `{"ok": True, "status": status, "topic": topic}`. -/
  | processed (status : String)
deriving DecidableEq

/-- Result of one `mp_webhook` invocation: the HTTP response (`ok` field and
status code), which body was produced, the table afterwards, and the
telegram ids `grant_access` was invoked for. -/
structure WebhookResult where
  ok : Bool
  status_code : Nat
  outcome : WebhookOutcome
  db : Db
  grants : List Int
deriving DecidableEq

/-- The payment-id resolution at the top of `mp_webhook`:
`params.get("id")` if truthy, else `payload.get("data", {}).get("id")` if
truthy, else `None`. -/
def resolvePaymentId (req : WebhookRequest) : Option String :=
  if truthyStr req.params_id then req.params_id
  else if truthyStr req.payload_data_id then req.payload_data_id
  else none

/-- An optional value counts as a present reference only when non-empty. -/
def presentNonEmpty : Option String → Option String
  | some s => if s = "" then none else some s
  | none => none

/-- Modelled from the spec: the canonical `providerReference` precedence as
§4.2 words it — the explicit top-level id parameter when present (an empty
value is not an explicit id), then the nested payload field `data.id` when
present, else none (the event is unparseable).  Stated separately from
`resolvePaymentId` so the source's resolution can be compared with it. -/
def specReferencePrecedence (req : WebhookRequest) : Option String :=
  (presentNonEmpty req.params_id).orElse (fun _ => presentNonEmpty req.payload_data_id)

/-- `mp_webhook` (`@app.post("/mp/webhook")` in `src/main.py`): resolve a
payment id, fetch the authoritative status from Mercado Pago (`fetch` is
that fetch's result), look the payment up, update the stored status when it
changed, mark approval (exactly when the fetched status is `approved` and
the stored one was not), and invoke `grant_access` whenever the fetched
status is `approved`. -/
def mp_webhook (subDays : Nat) (req : WebhookRequest) (fetch : Except Unit String)
    (now : Nat) (db : Db) : WebhookResult :=
  match resolvePaymentId req with
  | none =>
      { ok := true, status_code := 200, outcome := .ignored, db := db, grants := [] }
  | some pid =>
      match fetch with
      | .error _ =>
          { ok := true, status_code := 200, outcome := .fetchFailed, db := db, grants := [] }
      | .ok status =>
          match db_get_payment pid db with
          | none =>
              { ok := true, status_code := 200, outcome := .unknownPayment, db := db,
                grants := [] }
          | some row =>
              let plan := pyOr row.plan "30d"
              let db1 := if status ≠ row.status then db_update_status pid status db else db
              let db2 :=
                if status = "approved" ∧ row.status ≠ "approved" then
                  db_mark_approved subDays pid plan now db1
                else db1
              { ok := true, status_code := 200, outcome := .processed status, db := db2,
                grants := if status = "approved" then [row.telegram_id] else [] }

/-- What `cb_my_sub` ("Minha assinatura") tells the user. -/
inductive SubView
  /-- No stored row for this telegram id. -/
  | noRecord
  /-- Latest row exists but its status is not `approved`. -/
  | pendingApproval
  /-- Plan `"life"`: perpetual access (a fresh invite link is issued). -/
  | activePerpetual
  /-- Approved non-life row without an `expires_at` ("fale com o suporte"). -/
  | missingExpiry
  /-- `now < expires_at`: active until `e` (a fresh invite link is issued). -/
  | activeUntil (e : Nat)
  /-- `expires_at ≤ now`: expired at `e`. -/
  | expiredAt (e : Nat)
deriving DecidableEq

/-- `cb_my_sub`: the interactive subscription-status read path, a pure
function of the most recent row for the telegram id and the current time. -/
def cb_my_sub (tg : Int) (now : Nat) (db : Db) : SubView :=
  match db_get_latest_by_telegram tg db with
  | none => .noRecord
  | some row =>
      let plan := pyOr row.plan "30d"
      if row.status ≠ "approved" then .pendingApproval
      else if plan = "life" then .activePerpetual
      else
        match row.expires_at with
        | none => .missingExpiry
        | some e => if now < e then .activeUntil e else .expiredAt e

/-- The state-mutating operations of the system: `db_insert_payment` as
invoked from `on_email` when a purchase intent is created (`createPending`
in the spec), and one `mp_webhook` invocation (carrying the result of the
status fetch for its event). -/
inductive Op
  | createPending (id : String) (tg : Int) (email status : String)
      (plan : Option String) (now : Nat)
  | webhook (req : WebhookRequest) (fetch : Except Unit String) (now : Nat)

/-- The table after one operation. -/
def applyOp (subDays : Nat) (db : Db) : Op → Db
  | .createPending id tg email status plan now => db_insert_payment id tg email status plan now db
  | .webhook req fetch now => (mp_webhook subDays req fetch now db).db

/-- The `grant_access` invocations one operation performs. -/
def opGrants (subDays : Nat) (db : Db) : Op → List Int
  | .createPending _ _ _ _ _ _ => []
  | .webhook req fetch now => (mp_webhook subDays req fetch now db).grants

/-- Run a sequence of operations: final table and all `grant_access`
invocations, in order. -/
def runOps (subDays : Nat) (db : Db) : List Op → Db × List Int
  | [] => (db, [])
  | op :: rest =>
      let next := runOps subDays (applyOp subDays db op) rest
      (next.1, opGrants subDays db op ++ next.2)

/-- A row returned by `db_get_payment pid` carries the key `pid`. -/
theorem db_get_payment_key (pid : String) (db : Db) (row : PaymentRow)
    (h : db_get_payment pid db = some row) : row.mp_payment_id = pid := by
  have := List.find?_some h
  simpa using this

/-- `db_get_payment` commutes with a row transformation that preserves keys. -/
theorem db_get_payment_map (f : PaymentRow → PaymentRow)
    (hf : ∀ r, (f r).mp_payment_id = r.mp_payment_id) (pid : String) :
    ∀ db : Db, db_get_payment pid (db.map f) = (db_get_payment pid db).map f := by
  intro db
  induction db with
  | nil => rfl
  | cons a l ih =>
      by_cases h : a.mp_payment_id = pid
      · simp [db_get_payment, List.find?_cons, hf, h]
      · simp only [db_get_payment, List.map_cons, List.find?_cons, hf, h, decide_False] at *
        simpa using ih

/-- Lookup after `db_update_status` on the same key. -/
theorem get_db_update_status (pid s : String) (db : Db) :
    db_get_payment pid (db_update_status pid s db) =
      (db_get_payment pid db).map (fun r => { r with status := s }) := by
  unfold db_update_status
  rw [db_get_payment_map (fun r => if r.mp_payment_id = pid then { r with status := s } else r)
      (by intro r; by_cases h : r.mp_payment_id = pid <;> simp [h]) pid db]
  cases hfind : db_get_payment pid db with
  | none => rfl
  | some row => simp [db_get_payment_key pid db row hfind]

/-- Lookup after `db_mark_approved` on the same key. -/
theorem get_db_mark_approved (subDays : Nat) (pid plan : String) (now : Nat) (db : Db) :
    db_get_payment pid (db_mark_approved subDays pid plan now db) =
      (db_get_payment pid db).map (fun r =>
        { r with
          status := "approved",
          approved_at := some now,
          expires_at := if plan = "life" then none
                        else some (now + timedelta_days subDays) }) := by
  unfold db_mark_approved
  rw [db_get_payment_map _ (by intro r; by_cases h : r.mp_payment_id = pid <;> simp [h]) pid db]
  cases hfind : db_get_payment pid db with
  | none => rfl
  | some row => simp [db_get_payment_key pid db row hfind]

/-- Lookup after `db_insert_payment`: the inserted key yields the fresh row,
any other key is untouched (replace semantics only affect the inserted key). -/
theorem get_db_insert (id : String) (tg : Int) (email status : String)
    (plan : Option String) (now : Nat) (pid : String) :
    ∀ db : Db, db_get_payment pid (db_insert_payment id tg email status plan now db) =
      if pid = id then some (newPaymentRow id tg email status plan now)
      else db_get_payment pid db := by
  intro db
  induction db with
  | nil =>
      by_cases h : pid = id
      · simp [db_insert_payment, db_get_payment, newPaymentRow, List.find?, h]
      · have h2 : ¬ id = pid := fun he => h he.symm
        simp [db_insert_payment, db_get_payment, newPaymentRow, List.find?, h, h2]
  | cons a l ih =>
      by_cases ha : a.mp_payment_id = id
      · have : db_insert_payment id tg email status plan now (a :: l) =
            db_insert_payment id tg email status plan now l := by
          simp [db_insert_payment, List.filter_cons, ha]
        rw [this, ih]
        by_cases h : pid = id
        · simp [h]
        · have hap : ¬ a.mp_payment_id = pid := by rw [ha]; exact fun he => h he.symm
          simp [h, db_get_payment, List.find?_cons, hap]
      · have : db_insert_payment id tg email status plan now (a :: l) =
            a :: db_insert_payment id tg email status plan now l := by
          simp [db_insert_payment, List.filter_cons, ha]
        rw [this]
        by_cases hap : a.mp_payment_id = pid
        · have h : ¬ pid = id := by rw [← hap]; exact fun he => ha he
          simp [db_get_payment, List.find?_cons, hap, h]
        · simp only [db_get_payment, List.find?_cons, hap, decide_False] at *
          simpa using ih

/-- The full `mp_webhook` result when the payment id resolves, the status
fetch succeeds and the payment is stored. -/
theorem mp_webhook_matched (subDays : Nat) (req : WebhookRequest) (status : String)
    (now : Nat) (db : Db) (pid : String) (row : PaymentRow)
    (h1 : resolvePaymentId req = some pid)
    (h3 : db_get_payment pid db = some row) :
    mp_webhook subDays req (Except.ok status) now db =
      { ok := true, status_code := 200, outcome := .processed status,
        db := if status = "approved" ∧ row.status ≠ "approved" then
                db_mark_approved subDays pid (pyOr row.plan "30d") now
                  (if status ≠ row.status then db_update_status pid status db else db)
              else
                (if status ≠ row.status then db_update_status pid status db else db),
        grants := if status = "approved" then [row.telegram_id] else [] } := by
  unfold mp_webhook
  rw [h1]
  simp only [h3]

/-- The stored row for the matched payment after `mp_webhook`: fresh
approvals stamp `approved_at`/`expires_at`, replays leave the row as it was,
and any other fetched status only rewrites `status`. -/
theorem mp_webhook_row (subDays : Nat) (req : WebhookRequest) (status : String)
    (now : Nat) (db : Db) (pid : String) (row : PaymentRow)
    (h1 : resolvePaymentId req = some pid)
    (h3 : db_get_payment pid db = some row) :
    db_get_payment pid (mp_webhook subDays req (Except.ok status) now db).db =
      some (if status = "approved" ∧ row.status ≠ "approved" then
              { row with
                status := "approved",
                approved_at := some now,
                expires_at := if pyOr row.plan "30d" = "life" then none
                              else some (now + timedelta_days subDays) }
            else if status = row.status then row
            else { row with status := status }) := by
  rw [mp_webhook_matched subDays req status now db pid row h1 h3]
  dsimp only
  by_cases hc : status = "approved" ∧ row.status ≠ "approved"
  · obtain ⟨ha, hb⟩ := hc
    subst ha
    have hne : ¬ (("approved" : String) = row.status) := fun he => hb he.symm
    rw [if_pos (And.intro rfl hb), if_pos (And.intro rfl hb), if_pos hne,
        get_db_mark_approved, get_db_update_status, h3]
    rfl
  · rw [if_neg hc, if_neg hc]
    by_cases he : status = row.status
    · have hn : ¬ status ≠ row.status := fun hx => hx he
      rw [if_neg hn, if_pos he, h3]
    · rw [if_pos he, if_neg he, get_db_update_status, h3]
      rfl

/-- Replaying a fetched status equal to the stored one is a no-op on the
table and still invokes `grant_access` when that status is `approved`. -/
theorem mp_webhook_replay (subDays : Nat) (req : WebhookRequest) (status : String)
    (now : Nat) (db : Db) (pid : String) (row : PaymentRow)
    (h1 : resolvePaymentId req = some pid)
    (h3 : db_get_payment pid db = some row)
    (hs : row.status = status) :
    (mp_webhook subDays req (Except.ok status) now db).db = db ∧
    (mp_webhook subDays req (Except.ok status) now db).grants =
      (if status = "approved" then [row.telegram_id] else []) := by
  rw [mp_webhook_matched subDays req status now db pid row h1 h3]
  have h4 : ¬ status ≠ row.status := fun hn => hn hs.symm
  have h5 : ¬ (status = "approved" ∧ row.status ≠ "approved") := by
    rintro ⟨ha, hb⟩
    exact hb (hs.trans ha)
  rw [if_neg h5, if_neg h4]
  exact ⟨rfl, rfl⟩

/-- Once the stored status is `approved`, each further replay of the approved
event leaves the whole table untouched and performs one `grant_access`. -/
theorem replay_approved_fixpoint (subDays : Nat) (req : WebhookRequest) (pid : String)
    (h1 : resolvePaymentId req = some pid) :
    ∀ (ts : List Nat) (db : Db) (row : PaymentRow),
      db_get_payment pid db = some row → row.status = "approved" →
      runOps subDays db (ts.map (fun t => Op.webhook req (Except.ok "approved") t)) =
        (db, ts.map (fun _ => row.telegram_id)) := by
  intro ts
  induction ts with
  | nil => intro db row h3 hs; rfl
  | cons t ts ih =>
      intro db row h3 hs
      have hrep := mp_webhook_replay subDays req "approved" t db pid row h1 h3 hs
      simp only [List.map_cons, runOps, applyOp, opGrants]
      rw [hrep.1, hrep.2, ih db row h3 hs]
      simp

/-- The matched approved event always leaves the matched row `approved`
(whatever it was before), with its purchaser id intact. -/
theorem mp_webhook_approved_sets (subDays : Nat) (req : WebhookRequest)
    (now : Nat) (db : Db) (pid : String) (row : PaymentRow)
    (h1 : resolvePaymentId req = some pid)
    (h3 : db_get_payment pid db = some row) :
    ∃ row1, db_get_payment pid (mp_webhook subDays req (Except.ok "approved") now db).db
        = some row1 ∧ row1.status = "approved" ∧ row1.telegram_id = row.telegram_id := by
  have hrow := mp_webhook_row subDays req "approved" now db pid row h1 h3
  by_cases hb : row.status = "approved"
  · have hA : ¬ (("approved" : String) = "approved" ∧ row.status ≠ "approved") :=
      fun hx => hx.2 hb
    have hB : ("approved" : String) = row.status := hb.symm
    rw [if_neg hA, if_pos hB] at hrow
    exact ⟨row, hrow, hb, rfl⟩
  · have hA : (("approved" : String) = "approved" ∧ row.status ≠ "approved") :=
      And.intro rfl hb
    rw [if_pos hA] at hrow
    exact ⟨_, hrow, rfl, rfl⟩

/-- The table `mp_webhook` leaves behind: either untouched, or the
update/mark composite on the matched payment. -/
theorem mp_webhook_db_cases (subDays : Nat) (req : WebhookRequest)
    (fetch : Except Unit String) (now : Nat) (db : Db) :
    (mp_webhook subDays req fetch now db).db = db ∨
    ∃ pid status row,
      resolvePaymentId req = some pid ∧ fetch = Except.ok status ∧
      db_get_payment pid db = some row ∧
      (mp_webhook subDays req fetch now db).db =
        (if status = "approved" ∧ row.status ≠ "approved" then
           db_mark_approved subDays pid (pyOr row.plan "30d") now
             (if status ≠ row.status then db_update_status pid status db else db)
         else (if status ≠ row.status then db_update_status pid status db else db)) := by
  unfold mp_webhook
  cases hres : resolvePaymentId req with
  | none => left; rfl
  | some pid =>
      cases fetch with
      | error e => left; rfl
      | ok status =>
          dsimp only
          cases hfind : db_get_payment pid db with
          | none => left; rfl
          | some row =>
              right
              exact ⟨pid, status, row, rfl, rfl, hfind, rfl⟩

/-- No two rows of the table share a primary key (maintained by
`INSERT OR REPLACE`). -/
def UniqueIds (db : Db) : Prop := (db.map (fun r => r.mp_payment_id)).Nodup

/-- Rows on the `"life"` plan never carry an expiry. -/
def LifeNull (db : Db) : Prop := ∀ r ∈ db, r.plan = some "life" → r.expires_at = none

/-- With unique keys, any member carrying the looked-up key is the lookup's
result. -/
theorem find_of_unique (pid : String) :
    ∀ (db : Db), UniqueIds db → ∀ r ∈ db, r.mp_payment_id = pid →
      db_get_payment pid db = some r := by
  intro db
  induction db with
  | nil => intro _ r hr; cases hr
  | cons a l ih =>
      intro hu r hr hid
      have hu2 := List.nodup_cons.mp hu
      rcases List.mem_cons.mp hr with h | h
      · subst h
        simp [db_get_payment, List.find?_cons, hid]
      · have ha : ¬ a.mp_payment_id = pid := by
          intro he
          apply hu2.1
          show a.mp_payment_id ∈ List.map (fun r => r.mp_payment_id) l
          rw [he, ← hid]
          exact List.mem_map_of_mem _ h
        simp only [db_get_payment, List.find?_cons, ha, decide_False]
        simpa [db_get_payment] using ih hu2.2 r h hid

/-- A key-preserving row transformation leaves the key column unchanged. -/
theorem keys_map (f : PaymentRow → PaymentRow)
    (hf : ∀ r, (f r).mp_payment_id = r.mp_payment_id) (db : Db) :
    (db.map f).map (fun r => r.mp_payment_id) = db.map (fun r => r.mp_payment_id) := by
  rw [List.map_map]
  exact List.map_congr_left (fun r _ => hf r)

/-- `db_update_status` keeps keys unique. -/
theorem uniqueIds_update (pid s : String) (db : Db) (h : UniqueIds db) :
    UniqueIds (db_update_status pid s db) := by
  unfold UniqueIds db_update_status at *
  rw [keys_map _ (fun r => by by_cases hx : r.mp_payment_id = pid <;> simp [hx])]
  exact h

/-- `db_mark_approved` keeps keys unique. -/
theorem uniqueIds_mark (subDays : Nat) (pid plan : String) (now : Nat) (db : Db)
    (h : UniqueIds db) : UniqueIds (db_mark_approved subDays pid plan now db) := by
  unfold UniqueIds db_mark_approved at *
  rw [keys_map _ (fun r => by by_cases hx : r.mp_payment_id = pid <;> simp [hx])]
  exact h

/-- `db_insert_payment` keeps keys unique: the replaced key is first removed. -/
theorem uniqueIds_insert (id : String) (tg : Int) (email status : String)
    (plan : Option String) (now : Nat) (db : Db) (h : UniqueIds db) :
    UniqueIds (db_insert_payment id tg email status plan now db) := by
  unfold UniqueIds db_insert_payment at *
  rw [List.map_append]
  apply List.Nodup.append
  · exact ((List.filter_sublist db).map (fun r => r.mp_payment_id)).nodup h
  · simp
  · intro x hx hy
    obtain ⟨r, hr, hkey⟩ := List.mem_map.mp hx
    have hne := List.of_mem_filter hr
    simp only [newPaymentRow, List.map_cons, List.map_nil, List.mem_singleton] at hy
    rw [← hkey] at hy
    simp [hy] at hne

/-- `mp_webhook` keeps keys unique. -/
theorem uniqueIds_webhook (subDays : Nat) (req : WebhookRequest)
    (fetch : Except Unit String) (now : Nat) (db : Db) (hu : UniqueIds db) :
    UniqueIds (mp_webhook subDays req fetch now db).db := by
  rcases mp_webhook_db_cases subDays req fetch now db with heq |
    ⟨pid, status, row, h1, h2, h3, heq⟩
  · rw [heq]; exact hu
  · rw [heq]
    have hu1 : UniqueIds (if status ≠ row.status then db_update_status pid status db else db) := by
      split
      · exact uniqueIds_update pid status db hu
      · exact hu
    split
    · exact uniqueIds_mark subDays pid (pyOr row.plan "30d") now _ hu1
    · exact hu1

/-- `db_update_status` preserves the life-plan/no-expiry invariant. -/
theorem lifeNull_update (pid s : String) (db : Db) (h : LifeNull db) :
    LifeNull (db_update_status pid s db) := by
  intro r hr hp
  unfold db_update_status at hr
  obtain ⟨r0, hr0, hfr⟩ := List.mem_map.mp hr
  by_cases hx : r0.mp_payment_id = pid
  · rw [if_pos hx] at hfr
    rw [← hfr] at hp ⊢
    exact h r0 hr0 hp
  · rw [if_neg hx] at hfr
    rw [← hfr] at hp ⊢
    exact h r0 hr0 hp

/-- `db_insert_payment` preserves the life-plan/no-expiry invariant
(fresh rows carry no expiry). -/
theorem lifeNull_insert (id : String) (tg : Int) (email status : String)
    (plan : Option String) (now : Nat) (db : Db) (h : LifeNull db) :
    LifeNull (db_insert_payment id tg email status plan now db) := by
  intro r hr hp
  unfold db_insert_payment at hr
  rcases List.mem_append.mp hr with h1 | h2
  · exact h r (List.mem_of_mem_filter h1) hp
  · simp only [List.mem_singleton] at h2
    rw [h2]
    rfl

/-- `db_mark_approved` preserves the invariant provided the plan passed for
the marked key agrees with any stored life plan on that key. -/
theorem lifeNull_mark (subDays : Nat) (pid plan : String) (now : Nat) (db : Db)
    (h : LifeNull db)
    (hplan : ∀ r ∈ db, r.mp_payment_id = pid → r.plan = some "life" → plan = "life") :
    LifeNull (db_mark_approved subDays pid plan now db) := by
  intro r hr hp
  unfold db_mark_approved at hr
  obtain ⟨r0, hr0, hfr⟩ := List.mem_map.mp hr
  by_cases hx : r0.mp_payment_id = pid
  · rw [if_pos hx] at hfr
    have hp0 : r0.plan = some "life" := by rw [← hfr] at hp; exact hp
    have hlife := hplan r0 hr0 hx hp0
    rw [← hfr]
    simp [hlife]
  · rw [if_neg hx] at hfr
    rw [← hfr] at hp ⊢
    exact h r0 hr0 hp

/-- `mp_webhook` preserves the life-plan/no-expiry invariant on tables with
unique keys: the plan used at approval is read from the matched row itself. -/
theorem lifeNull_webhook (subDays : Nat) (req : WebhookRequest)
    (fetch : Except Unit String) (now : Nat) (db : Db)
    (hu : UniqueIds db) (h : LifeNull db) :
    LifeNull (mp_webhook subDays req fetch now db).db := by
  rcases mp_webhook_db_cases subDays req fetch now db with heq |
    ⟨pid, status, row, h1, h2, h3, heq⟩
  · rw [heq]; exact h
  · rw [heq]
    have hu1 : UniqueIds (if status ≠ row.status then db_update_status pid status db else db) := by
      split
      · exact uniqueIds_update pid status db hu
      · exact hu
    have hl1 : LifeNull (if status ≠ row.status then db_update_status pid status db else db) := by
      split
      · exact lifeNull_update pid status db h
      · exact h
    have hfind1 : db_get_payment pid
        (if status ≠ row.status then db_update_status pid status db else db) =
        some (if status ≠ row.status then { row with status := status } else row) := by
      split
      · rw [get_db_update_status, h3]
        rfl
      · exact h3
    split
    · apply lifeNull_mark subDays pid (pyOr row.plan "30d") now _ hl1
      intro r hr hid hp
      have hfr := find_of_unique pid _ hu1 r hr hid
      rw [hfind1] at hfr
      have hrp : r.plan = row.plan := by
        have hre := Option.some.inj hfr
        rw [← hre]
        split <;> rfl
      rw [hrp] at hp
      rw [hp]
      rfl
    · exact hl1

/-- Every run of system operations keeps keys unique and keeps life-plan
rows expiry-free. -/
theorem runOps_invariants (subDays : Nat) :
    ∀ (ops : List Op) (db : Db), UniqueIds db → LifeNull db →
      UniqueIds (runOps subDays db ops).1 ∧ LifeNull (runOps subDays db ops).1 := by
  intro ops
  induction ops with
  | nil => intro db hu hl; exact ⟨hu, hl⟩
  | cons op rest ih =>
      intro db hu hl
      have hstep : UniqueIds (applyOp subDays db op) ∧ LifeNull (applyOp subDays db op) := by
        cases op with
        | createPending id tg email status plan now =>
            exact ⟨uniqueIds_insert id tg email status plan now db hu,
                   lifeNull_insert id tg email status plan now db hl⟩
        | webhook req fetch now =>
            exact ⟨uniqueIds_webhook subDays req fetch now db hu,
                   lifeNull_webhook subDays req fetch now db hu hl⟩
      simpa only [runOps] using ih (applyOp subDays db op) hstep.1 hstep.2

/-- A stored pending purchase used in the concrete instances below. -/
def row0 : PaymentRow :=
  { mp_payment_id := "p1", telegram_id := 7, email := "a@x.com", status := "pending",
    created_at := 0, approved_at := none, expires_at := none, plan := some "30d" }

/-- A webhook request carrying the query parameter `id=p1`. -/
def req0 : WebhookRequest :=
  { params_id := some "p1", params_topic := some "payment", params_type := none,
    payload_type := none, payload_data_id := none }

/-- C1, counterexample to the claim as stated: one pending purchase is
created, then the same approved event is delivered twice; the handler
invokes `grant_access` on both deliveries, so the total number of
`AccessGrantRequested` emissions is 2, not exactly 1 (line 534 of
`src/main.py` grants whenever the fetched status is `approved`, not only on
the first transition). -/
theorem C1_counterexample :
    (runOps 30 [] [Op.createPending "p1" 7 "a@x.com" "pending" (some "30d") 0,
        Op.webhook req0 (Except.ok "approved") 1,
        Op.webhook req0 (Except.ok "approved") 2]).2.length = 2 ∧
    (runOps 30 [] [Op.createPending "p1" 7 "a@x.com" "pending" (some "30d") 0,
        Op.webhook req0 (Except.ok "approved") 1,
        Op.webhook req0 (Except.ok "approved") 2]).2.length ≠ 1 := by
  decide

/-- C1 (amended): replaying the same approved `PaymentEvent` against the
same matched `PurchaseRecord` N times (N ≥ 1) yields one
`AccessGrantRequested` emission per application — N in total — while the
stored table after the first application is never changed again; in
particular `approvedAt` is unchanged by every application after the first. -/
theorem C1_replay_grants_per_application (subDays : Nat) (req : WebhookRequest)
    (pid : String) (db : Db) (row : PaymentRow) (t0 : Nat) (ts : List Nat)
    (h1 : resolvePaymentId req = some pid)
    (h3 : db_get_payment pid db = some row) :
    (runOps subDays db
        ((t0 :: ts).map (fun t => Op.webhook req (Except.ok "approved") t))).2.length
      = ts.length + 1 ∧
    (runOps subDays db
        ((t0 :: ts).map (fun t => Op.webhook req (Except.ok "approved") t))).1
      = (mp_webhook subDays req (Except.ok "approved") t0 db).db := by
  obtain ⟨row1, hf1, hs1, ht1⟩ := mp_webhook_approved_sets subDays req t0 db pid row h1 h3
  have hfix := replay_approved_fixpoint subDays req pid h1 ts _ row1 hf1 hs1
  simp only [List.map_cons, runOps, applyOp, opGrants]
  rw [hfix]
  constructor
  · rw [mp_webhook_matched subDays req "approved" t0 db pid row h1 h3]
    simp [Nat.add_comm]
  · rfl

/-- C1 witness: the amended theorem at a concrete input — a stored pending
purchase receives the approved event at times 1 and 2; two grants are
emitted and the table is already final after the first application. -/
theorem C1_witness :
    (runOps 30 [row0]
        (((1 : Nat) :: [2]).map (fun t => Op.webhook req0 (Except.ok "approved") t))).2.length
      = 2 ∧
    (runOps 30 [row0]
        (((1 : Nat) :: [2]).map (fun t => Op.webhook req0 (Except.ok "approved") t))).1
      = (mp_webhook 30 req0 (Except.ok "approved") 1 [row0]).db := by
  have h := C1_replay_grants_per_application 30 req0 "p1" [row0] row0 1 [2]
    (by decide) (by decide)
  exact ⟨h.1, h.2⟩

/-- C2, counterexample to the claim as stated: starting from an empty table,
create a pending purchase, deliver an approved event at time 1, then a
refunded event at time 2 — the reachable record then has
`approved_at = some 1` while `status = "refunded"`, violating the claimed
biconditional; delivering a second approved event at time 3 then rewrites
`approved_at` to `some 3`, violating the claimed immutability (the record
provably had `approved_at = some 1` after the first approval). -/
theorem C2_counterexample :
    (¬ ∀ r ∈ (runOps 30 [] [Op.createPending "p1" 7 "a@x.com" "pending" (some "30d") 0,
          Op.webhook req0 (Except.ok "approved") 1,
          Op.webhook req0 (Except.ok "refunded") 2]).1,
        (r.approved_at ≠ none ↔ r.status = "approved")) ∧
    (runOps 30 [] [Op.createPending "p1" 7 "a@x.com" "pending" (some "30d") 0,
        Op.webhook req0 (Except.ok "approved") 1]).1.map (fun r => r.approved_at)
      = [some 1] ∧
    (runOps 30 [] [Op.createPending "p1" 7 "a@x.com" "pending" (some "30d") 0,
        Op.webhook req0 (Except.ok "approved") 1,
        Op.webhook req0 (Except.ok "refunded") 2,
        Op.webhook req0 (Except.ok "approved") 3]).1.map (fun r => r.approved_at)
      = [some 3] := by
  decide

/-- C2 (amended): for a matched callback, the stored status afterwards
always equals the fetched status, and `approvedAt` is rewritten (to the
callback time) exactly when the callback transitions the record into
`approved` from a different stored status; a callback whose fetched status
equals the stored one changes nothing at all.  Consequently `approvedAt`
stays set when the status later flips away from `approved` (the claimed
biconditional fails in that direction) and is re-stamped by a re-approval
after such a flip. -/
theorem C2_approvedAt_evolution (subDays : Nat) (req : WebhookRequest) (status : String)
    (now : Nat) (db : Db) (pid : String) (row : PaymentRow)
    (h1 : resolvePaymentId req = some pid)
    (h3 : db_get_payment pid db = some row) :
    Option.map (fun r => r.approved_at)
        (db_get_payment pid (mp_webhook subDays req (Except.ok status) now db).db)
      = some (if status = "approved" ∧ row.status ≠ "approved" then some now
              else row.approved_at) ∧
    Option.map (fun r => r.status)
        (db_get_payment pid (mp_webhook subDays req (Except.ok status) now db).db)
      = some status ∧
    (status = row.status → (mp_webhook subDays req (Except.ok status) now db).db = db) := by
  have hrow := mp_webhook_row subDays req status now db pid row h1 h3
  refine ⟨?_, ?_, ?_⟩
  · rw [hrow]
    by_cases hA : status = "approved" ∧ row.status ≠ "approved"
    · rw [if_pos hA, if_pos hA]
      rfl
    · rw [if_neg hA, if_neg hA]
      by_cases he : status = row.status
      · rw [if_pos he]
        rfl
      · rw [if_neg he]
        rfl
  · rw [hrow]
    by_cases hA : status = "approved" ∧ row.status ≠ "approved"
    · rw [if_pos hA, hA.1]
      rfl
    · rw [if_neg hA]
      by_cases he : status = row.status
      · rw [if_pos he, he]
        rfl
      · rw [if_neg he]
        rfl
  · intro he
    exact (mp_webhook_replay subDays req status now db pid row h1 h3 he.symm).1

/-- C2 witness: the amended theorem at a concrete input — an approved event
at time 9 against a stored pending purchase stamps `approved_at = some 9`
and stores status `approved`. -/
theorem C2_witness :
    Option.map (fun r => r.approved_at)
        (db_get_payment "p1" (mp_webhook 30 req0 (Except.ok "approved") 9 [row0]).db)
      = some (some 9) ∧
    Option.map (fun r => r.status)
        (db_get_payment "p1" (mp_webhook 30 req0 (Except.ok "approved") 9 [row0]).db)
      = some "approved" := by
  have h := C2_approvedAt_evolution 30 req0 "approved" 9 [row0] "p1" row0
    (by decide) (by decide)
  exact ⟨by rw [h.1]; decide, h.2.1⟩

/-- C3, counterexample to the claim as stated: after creating purchase `p1`
and approving it, a second `createPending` arriving under the same provider
reference `p1` replaces the approved record (`INSERT OR REPLACE`), leaving a
single row with the provider-reported status `in_process` (not `pending`),
a reset `created_at` and a nulled `approved_at` — so creation does not
always insert with status `pending`, and an existing record can be
replaced. -/
theorem C3_counterexample :
    (runOps 30 [] [Op.createPending "p1" 7 "a@x.com" "pending" (some "30d") 0,
        Op.webhook req0 (Except.ok "approved") 1]).1.map (fun r => (r.status, r.approved_at))
      = [("approved", some 1)] ∧
    (runOps 30 [] [Op.createPending "p1" 7 "a@x.com" "pending" (some "30d") 0,
        Op.webhook req0 (Except.ok "approved") 1,
        Op.createPending "p1" 7 "b@x.com" "in_process" (some "life") 5]).1
      = [{ mp_payment_id := "p1", telegram_id := 7, email := "b@x.com",
           status := "in_process", created_at := 5, approved_at := none,
           expires_at := none, plan := some "life" }] := by
  decide

/-- C3 (amended): `createPending` always succeeds and stores a record with
`createdAt = now`, null `approvedAt`/`expiresAt`, and the provider-reported
initial status (which is `pending` in the normal flow but is whatever the
provider returned); records under every other provider reference are left
untouched — but insertion uses replace-on-conflict semantics, so a colliding
provider reference replaces the existing record rather than preserving it. -/
theorem C3_createPending_inserts (id : String) (tg : Int) (email status : String)
    (plan : Option String) (now : Nat) (db : Db) (pid : String) (hne : pid ≠ id) :
    db_get_payment id (db_insert_payment id tg email status plan now db) =
      some { mp_payment_id := id, telegram_id := tg, email := email, status := status,
             created_at := now, approved_at := none, expires_at := none, plan := plan } ∧
    db_get_payment pid (db_insert_payment id tg email status plan now db) =
      db_get_payment pid db := by
  constructor
  · rw [get_db_insert]
    simp [newPaymentRow]
  · rw [get_db_insert]
    simp [hne]

/-- C3 witness: the amended theorem at a concrete input — inserting `p2`
into a table holding `p1` stores the fresh row under `p2` and leaves the
lookup of `p1` unchanged. -/
theorem C3_witness :
    db_get_payment "p2" (db_insert_payment "p2" 9 "b@x.com" "pending" (some "life") 3 [row0]) =
      some { mp_payment_id := "p2", telegram_id := 9, email := "b@x.com",
             status := "pending", created_at := 3, approved_at := none,
             expires_at := none, plan := some "life" } ∧
    db_get_payment "p1" (db_insert_payment "p2" 9 "b@x.com" "pending" (some "life") 3 [row0]) =
      db_get_payment "p1" [row0] := by
  have h := C3_createPending_inserts "p2" 9 "b@x.com" "pending" (some "life") 3 [row0] "p1"
    (by decide)
  exact ⟨h.1, h.2⟩

/-- C4: when resolution goes by contact and exactly two records match, the
younger record (larger `created_at`) is the one returned, both for the
spec-modelled contact lookup and for the source's
`db_get_latest_by_telegram` (`ORDER BY created_at DESC LIMIT 1`), whose
most-recent-wins shape the contact lookup mirrors. -/
theorem C4_most_recent_wins (contact : String) (tg : Int) (db dbT : Db)
    (rA rB sA sB : PaymentRow)
    (h1 : db.filter (fun r => r.email = contact) = [rA, rB])
    (h2 : rA.created_at < rB.created_at)
    (h3 : dbT.filter (fun r => r.telegram_id = tg) = [sA, sB])
    (h4 : sA.created_at < sB.created_at) :
    findByContact contact db = some rB ∧ db_get_latest_by_telegram tg dbT = some sB := by
  constructor
  · unfold findByContact
    rw [h1]
    unfold latestRow
    simp [h2]
  · unfold db_get_latest_by_telegram
    rw [h3]
    unfold latestRow
    simp [h4]

/-- A record for contact `a@x.com` created at time 1 (provider reference
`a1`). -/
def c4rowA : PaymentRow :=
  { mp_payment_id := "a1", telegram_id := 7, email := "a@x.com", status := "pending",
    created_at := 1, approved_at := none, expires_at := none, plan := some "30d" }

/-- A second record for the same contact, created later, at time 2. -/
def c4rowB : PaymentRow := { c4rowA with mp_payment_id := "a2", created_at := 2 }

/-- C4 witness: with two records for the same contact created at times
1 < 2, both lookups return the record created at time 2. -/
theorem C4_witness :
    findByContact "a@x.com" [c4rowA, c4rowB] = some c4rowB ∧
    db_get_latest_by_telegram 7 [c4rowA, c4rowB] = some c4rowB := by
  exact C4_most_recent_wins "a@x.com" 7 [c4rowA, c4rowB] [c4rowA, c4rowB]
    c4rowA c4rowB c4rowA c4rowB (by decide) (by decide) (by decide) (by decide)

/-- C5: (a) a matched approval of a record whose effective plan is not
`"life"` (fixed-term) at time `now` writes `expires_at = now + D` exactly,
where `D = timedelta_days subDays` is the configured duration; (b) over
every run of system operations from an empty table, a record on the
perpetual `"life"` plan never carries an expiry. -/
theorem C5_expiry_arithmetic (subDays : Nat) (req : WebhookRequest) (now : Nat)
    (db : Db) (pid : String) (row : PaymentRow) (ops : List Op)
    (h1 : resolvePaymentId req = some pid)
    (h3 : db_get_payment pid db = some row)
    (h4 : row.status ≠ "approved")
    (h5 : pyOr row.plan "30d" ≠ "life") :
    db_get_payment pid (mp_webhook subDays req (Except.ok "approved") now db).db =
      some { row with
             status := "approved",
             approved_at := some now,
             expires_at := some (now + timedelta_days subDays) } ∧
    ∀ r ∈ (runOps subDays [] ops).1, r.plan = some "life" → r.expires_at = none := by
  constructor
  · have hrow := mp_webhook_row subDays req "approved" now db pid row h1 h3
    rw [if_pos (And.intro rfl h4), if_neg h5] at hrow
    exact hrow
  · have h0u : UniqueIds ([] : Db) := by simp [UniqueIds]
    have h0l : LifeNull ([] : Db) := by intro r hr; cases hr
    exact (runOps_invariants subDays ops [] h0u h0l).2

/-- A webhook request carrying the query parameter `id=p9`. -/
def req9 : WebhookRequest := { req0 with params_id := some "p9" }

/-- The record produced by creating a `"life"`-plan purchase `p9` at time 0
and approving it at time 2: `expires_at` stays null. -/
def c5liferow : PaymentRow :=
  { mp_payment_id := "p9", telegram_id := 8, email := "c@x.com", status := "approved",
    created_at := 0, approved_at := some 2, expires_at := none, plan := some "life" }

/-- C5 witness: approving the stored fixed-term purchase at time 4 stamps
`expires_at = 4 + 30 days`, and the life-plan record reached by a concrete
create-then-approve run carries no expiry. -/
theorem C5_witness :
    db_get_payment "p1" (mp_webhook 30 req0 (Except.ok "approved") 4 [row0]).db =
      some { row0 with
             status := "approved",
             approved_at := some 4,
             expires_at := some (4 + timedelta_days 30) } ∧
    c5liferow ∈ (runOps 30 []
        [Op.createPending "p9" 8 "c@x.com" "pending" (some "life") 0,
         Op.webhook req9 (Except.ok "approved") 2]).1 ∧
    c5liferow.expires_at = none := by
  have h := C5_expiry_arithmetic 30 req0 4 [row0] "p1" row0
    [Op.createPending "p9" 8 "c@x.com" "pending" (some "life") 0,
     Op.webhook req9 (Except.ok "approved") 2]
    (by decide) (by decide) (by decide) (by decide)
  exact ⟨h.1, by decide, h.2 c5liferow (by decide) (by decide)⟩

/-- C6: a callback whose resolved provider reference matches no stored
record leaves the table untouched, emits no grant and is acknowledged with
an ok/200 response (`unknown_payment` body), raising nothing to the caller.
(The handler in this revision never consults contact addresses, so an
unknown reference is already unmatched.) -/
theorem C6_unmatched_safe (subDays : Nat) (req : WebhookRequest) (status : String)
    (now : Nat) (db : Db) (pid : String)
    (h1 : resolvePaymentId req = some pid)
    (h3 : db_get_payment pid db = none) :
    (mp_webhook subDays req (Except.ok status) now db).db = db ∧
    (mp_webhook subDays req (Except.ok status) now db).grants = [] ∧
    (mp_webhook subDays req (Except.ok status) now db).ok = true ∧
    (mp_webhook subDays req (Except.ok status) now db).status_code = 200 ∧
    (mp_webhook subDays req (Except.ok status) now db).outcome = .unknownPayment := by
  unfold mp_webhook
  rw [h1]
  simp [h3]

/-- C6 witness: an approved event for the unknown reference `p1` against an
empty table mutates nothing and answers ok/200. -/
theorem C6_witness :
    (mp_webhook 30 req0 (Except.ok "approved") 5 []).db = [] ∧
    (mp_webhook 30 req0 (Except.ok "approved") 5 []).grants = [] ∧
    (mp_webhook 30 req0 (Except.ok "approved") 5 []).ok = true ∧
    (mp_webhook 30 req0 (Except.ok "approved") 5 []).status_code = 200 ∧
    (mp_webhook 30 req0 (Except.ok "approved") 5 []).outcome = .unknownPayment := by
  exact C6_unmatched_safe 30 req0 "approved" 5 [] "p1" (by decide) (by decide)

/-- C7: every invocation of the provider-callback entry point — malformed
payloads (no resolvable id), failed status fetches, unmatched events and
processed events alike — answers with `"ok": True` and HTTP status 200,
never an error response. -/
theorem C7_always_success_response (subDays : Nat) (req : WebhookRequest)
    (fetch : Except Unit String) (now : Nat) (db : Db) :
    (mp_webhook subDays req fetch now db).ok = true ∧
    (mp_webhook subDays req fetch now db).status_code = 200 := by
  unfold mp_webhook
  cases resolvePaymentId req with
  | none => exact ⟨rfl, rfl⟩
  | some pid =>
      cases fetch with
      | error e => exact ⟨rfl, rfl⟩
      | ok status =>
          dsimp only
          cases db_get_payment pid db with
          | none => exact ⟨rfl, rfl⟩
          | some row => exact ⟨rfl, rfl⟩

/-- C8: when the authoritative status fetch fails, the handler returns
immediately: the table is untouched (in particular no record's status is
set to `rejected`), no grant is emitted, and the failure surfaces only as
the transient `failed_to_fetch_payment` body with an ok/200 response. -/
theorem C8_fetch_failure_transient (subDays : Nat) (req : WebhookRequest) (e : Unit)
    (now : Nat) (db : Db) (pid : String)
    (h1 : resolvePaymentId req = some pid) :
    (mp_webhook subDays req (Except.error e) now db).db = db ∧
    (mp_webhook subDays req (Except.error e) now db).grants = [] ∧
    (mp_webhook subDays req (Except.error e) now db).ok = true ∧
    (mp_webhook subDays req (Except.error e) now db).status_code = 200 ∧
    (mp_webhook subDays req (Except.error e) now db).outcome = .fetchFailed := by
  unfold mp_webhook
  rw [h1]
  exact ⟨rfl, rfl, rfl, rfl, rfl⟩

/-- C8 witness: a failed fetch for the stored purchase `p1` leaves the
table as it was and reports the transient outcome. -/
theorem C8_witness :
    (mp_webhook 30 req0 (Except.error ()) 5 [row0]).db = [row0] ∧
    (mp_webhook 30 req0 (Except.error ()) 5 [row0]).grants = [] ∧
    (mp_webhook 30 req0 (Except.error ()) 5 [row0]).ok = true ∧
    (mp_webhook 30 req0 (Except.error ()) 5 [row0]).status_code = 200 ∧
    (mp_webhook 30 req0 (Except.error ()) 5 [row0]).outcome = .fetchFailed := by
  exact C8_fetch_failure_transient 30 req0 () 5 [row0] "p1" (by decide)

/-- C9: the source's payment-id resolution coincides with the spec's stated
precedence (explicit top-level id parameter first, then the nested
`data.id`, else unparseable) on every request, and an unparseable event
never reaches the reconciliation step: the handler's result does not even
depend on the status fetch, the table is untouched, no grant is emitted and
the `ignored` body is returned. -/
theorem C9_reference_precedence (subDays : Nat) (req : WebhookRequest)
    (f g : Except Unit String) (now : Nat) (db : Db) :
    resolvePaymentId req = specReferencePrecedence req ∧
    (specReferencePrecedence req = none →
      mp_webhook subDays req f now db = mp_webhook subDays req g now db ∧
      (mp_webhook subDays req f now db).db = db ∧
      (mp_webhook subDays req f now db).grants = [] ∧
      (mp_webhook subDays req f now db).outcome = .ignored) := by
  have heq : resolvePaymentId req = specReferencePrecedence req := by
    unfold resolvePaymentId specReferencePrecedence presentNonEmpty truthyStr
    cases hp : req.params_id with
    | none =>
        cases hd : req.payload_data_id with
        | none => rfl
        | some d => by_cases hde : d = "" <;> simp [hde, Option.orElse]
    | some s =>
        by_cases hse : s = ""
        · cases hd : req.payload_data_id with
          | none => simp [hse, Option.orElse]
          | some d => by_cases hde : d = "" <;> simp [hse, hde, Option.orElse]
        · simp [hse, Option.orElse]
  refine ⟨heq, fun hnone => ?_⟩
  have hres : resolvePaymentId req = none := heq.trans hnone
  unfold mp_webhook
  rw [hres]
  exact ⟨rfl, rfl, rfl, rfl⟩

/-- A webhook request whose `id` query parameter is present but empty and
whose body carries no `data.id`: unparseable under both formulations. -/
def c9req : WebhookRequest :=
  { params_id := some "", params_topic := none, params_type := none,
    payload_type := none, payload_data_id := none }

/-- C9 witness: on the unparseable request the resolution agrees with the
spec precedence and the handler ignores the event identically for a
successful and a failed fetch, touching nothing. -/
theorem C9_witness :
    resolvePaymentId c9req = specReferencePrecedence c9req ∧
    mp_webhook 30 c9req (Except.ok "approved") 5 [row0] =
      mp_webhook 30 c9req (Except.error ()) 5 [row0] ∧
    (mp_webhook 30 c9req (Except.ok "approved") 5 [row0]).db = [row0] ∧
    (mp_webhook 30 c9req (Except.ok "approved") 5 [row0]).grants = [] ∧
    (mp_webhook 30 c9req (Except.ok "approved") 5 [row0]).outcome = .ignored := by
  have h := C9_reference_precedence 30 c9req (Except.ok "approved") (Except.error ()) 5 [row0]
  have h2 := h.2 (by decide)
  exact ⟨h.1, h2.1, h2.2.1, h2.2.2.1, h2.2.2.2⟩

/-- C10: a stored record whose `plan` column is NULL is treated as the
30-day plan `"30d"` on both read paths (`plan = plan or "30d"`): a matched
approval stamps a `SUB_DAYS = 30`-day expiry for it, and the subscription
status check takes the expiry-comparison branch (never the perpetual one). -/
theorem C10_null_plan_defaults (req : WebhookRequest) (now tq : Nat) (db dbq : Db)
    (pid : String) (row rowq : PaymentRow) (tg : Int)
    (h1 : resolvePaymentId req = some pid)
    (h3 : db_get_payment pid db = some row)
    (h4 : row.status ≠ "approved")
    (h5 : row.plan = none)
    (h6 : db_get_latest_by_telegram tg dbq = some rowq)
    (h7 : rowq.plan = none)
    (h8 : rowq.status = "approved") :
    db_get_payment pid (mp_webhook SUB_DAYS req (Except.ok "approved") now db).db =
      some { row with
             status := "approved",
             approved_at := some now,
             expires_at := some (now + timedelta_days SUB_DAYS) } ∧
    timedelta_days SUB_DAYS = 30 * 86400 ∧
    cb_my_sub tg tq dbq =
      (match rowq.expires_at with
       | none => SubView.missingExpiry
       | some e => if tq < e then SubView.activeUntil e else SubView.expiredAt e) ∧
    cb_my_sub tg tq dbq ≠ SubView.activePerpetual := by
  have hplan : pyOr row.plan "30d" ≠ "life" := by
    rw [h5]
    decide
  have hmain : cb_my_sub tg tq dbq =
      (match rowq.expires_at with
       | none => SubView.missingExpiry
       | some e => if tq < e then SubView.activeUntil e else SubView.expiredAt e) := by
    unfold cb_my_sub
    rw [h6]
    dsimp only
    have hne : ¬ rowq.status ≠ "approved" := fun hx => hx h8
    rw [if_neg hne, h7]
    rfl
  refine ⟨?_, rfl, hmain, ?_⟩
  · have hrow := mp_webhook_row SUB_DAYS req "approved" now db pid row h1 h3
    rw [if_pos (And.intro rfl h4), if_neg hplan] at hrow
    exact hrow
  · rw [hmain]
    cases hexp : rowq.expires_at with
    | none => simp
    | some e =>
        by_cases ht : tq < e
        · simp [ht]
        · simp [ht]

/-- The stored record for `p1` with a NULL plan column. -/
def c10row : PaymentRow := { row0 with plan := none }

/-- C10 witness: approving the NULL-plan record at time 4 stamps the 30-day
expiry, and the status check on an approved NULL-plan record with expiry
2592005 at time 5 applies the expiry comparison (active, not perpetual). -/
theorem C10_witness :
    db_get_payment "p1" (mp_webhook SUB_DAYS req0 (Except.ok "approved") 4 [c10row]).db =
      some { c10row with
             status := "approved",
             approved_at := some 4,
             expires_at := some (4 + timedelta_days SUB_DAYS) } ∧
    cb_my_sub 7 5 [{ c10row with status := "approved", expires_at := some 2592005 }] =
      SubView.activeUntil 2592005 ∧
    cb_my_sub 7 5 [{ c10row with status := "approved", expires_at := some 2592005 }] ≠
      SubView.activePerpetual := by
  have h := C10_null_plan_defaults req0 4 5 [c10row]
    [{ c10row with status := "approved", expires_at := some 2592005 }] "p1" c10row
    { c10row with status := "approved", expires_at := some 2592005 } 7
    (by decide) (by decide) (by decide) (by decide) (by decide) (by decide) (by decide)
  refine ⟨h.1, ?_, h.2.2.2⟩
  rw [h.2.2.1]
  decide

end VipBot
